import Mathlib

/-!
Verification of the OpenClaw Mattermost Toolchain Poster plugin.

Shallow embedding of the current plugin version in `src/src/index.ts`
(the v1.3.14 snapshot: `message_received`, `before_tool_call`,
`tool_result_persist` handlers, the `/halt` and `/unhalt` command
handlers, `getClient` and the bot-account registry) together with the
relevant parts of `src/src/mattermost.ts`.

JavaScript `Map`s are modelled as insertion-ordered association lists
(`mapSet` updates in place, keeping the original position, exactly as
`Map.prototype.set` does), `Set`s as duplicate-free lists, and machine
timestamps (`Date.now()`) as natural numbers of milliseconds.  Optional
strings keep JavaScript truthiness: `none` and `some ""` are both falsy.
Network calls are modelled by outcome oracles of type
`Except String (Option String)` (an exception, or a post id).
-/

namespace ToolchainPoster

/-- JavaScript truthiness of an optional string: present and non-empty. -/
def truthy : Option String → Bool
  | some s => s ≠ ""
  | none => false

/-- JavaScript `a || b` on optional strings. -/
def jsOr (a b : Option String) : Option String :=
  if truthy a then a else b

/-- `String.prototype.startsWith`, computed on the character lists. -/
def strStartsWith (s pat : String) : Bool :=
  pat.data.isPrefixOf s.data

/-- Does `pat` occur as a contiguous sublist? -/
def subOccurs (pat : List Char) : List Char → Bool
  | [] => pat.isEmpty
  | c :: rest => pat.isPrefixOf (c :: rest) || subOccurs pat rest

/-- Substring containment (`String.prototype.includes`), computed on
the character lists. -/
def containsSub (s pat : String) : Bool :=
  subOccurs pat.data s.data

/-- `Map.prototype.set`: update in place if the key exists (keeping the
insertion position, as JavaScript `Map` does), append otherwise. -/
def mapSet {α : Type} : List (String × α) → String → α → List (String × α)
  | [], k, v => [(k, v)]
  | (k', v') :: rest, k, v =>
    if k' = k then (k, v) :: rest else (k', v') :: mapSet rest k v

/-- `Map.prototype.get`: first (unique) binding for the key. -/
def mapGet {α : Type} : List (String × α) → String → Option α
  | [], _ => none
  | (k', v) :: rest, k => if k' = k then some v else mapGet rest k

/-- `Set.prototype.has`. -/
def setHas (s : List String) (x : String) : Bool :=
  decide (x ∈ s)

/-- `Set.prototype.add`. -/
def setAdd (s : List String) (x : String) : List String :=
  if x ∈ s then s else s ++ [x]

/-- `Set.prototype.delete` (drops the element if present). -/
def setDel (s : List String) (x : String) : List String :=
  s.filter (fun y => y ≠ x)

/-- One `sessionSenders` entry: `{ senderId, timestamp }`
(index.ts line 427). -/
structure SenderEntry where
  senderId : String
  timestamp : Nat
deriving DecidableEq

/-- The `sessionSenders` map: identifier (session key or account name)
to most recent sender link. -/
abbrev SenderTable := List (String × SenderEntry)

/-- The shared mutable state of the plugin that the halt gate and sender
resolver read and write: `sessionSenders` and `stoppedSessions`. -/
structure GateState where
  sessionSenders : SenderTable
  stoppedSessions : List String

/-- The session-key writes of the `message_received` handler
(index.ts lines 730-748): the entry is stored under the literal session
key, under `agent:` + session key when the canonical `agent:` marker is
absent, and under the account id plus `agent:ACCOUNT:main`. -/
def recordSenderLinks (sessionKey : Option String) (accountId : String)
    (entry : SenderEntry) (tbl : SenderTable) : SenderTable :=
  let tbl1 :=
    if truthy sessionKey then
      let k := sessionKey.getD ""
      let t0 := mapSet tbl k entry
      if strStartsWith k "agent:" then t0 else mapSet t0 ("agent:" ++ k) entry
    else tbl
  if accountId ≠ "" then
    mapSet (mapSet tbl1 accountId entry) ("agent:" ++ accountId ++ ":main") entry
  else tbl1

/-- The normalized form of a session key: the canonical `agent:` marker
ensured, mirroring the conditional second write in the
`message_received` handler (index.ts lines 736-738). -/
def normalizeKey (k : String) : String :=
  if strStartsWith k "agent:" then k else "agent:" ++ k

/-- A `message_received` event: `event.metadata?.senderId`,
`event.metadata?.sessionKey` and `event.content`. -/
structure MsgEvent where
  senderId : Option String
  sessionKeyMeta : Option String
  content : String

/-- A `message_received` context: `ctx.accountId` and
`ctx.conversationId`. -/
structure MsgCtx where
  accountId : String
  conversationId : String

/-- The `message_received` handler (index.ts lines 720-757): record the
sender links when a sender id is present, then clear the halt state for
that sender unless the message content is itself a `/halt` or `/unhalt`
command. -/
def messageReceived (ev : MsgEvent) (ctx : MsgCtx) (now : Nat)
    (st : GateState) : GateState :=
  let sessionKey := jsOr ev.sessionKeyMeta (some ctx.conversationId)
  let st1 :=
    match ev.senderId with
    | some sid =>
      if sid ≠ "" then
        { st with sessionSenders :=
            recordSenderLinks sessionKey ctx.accountId ⟨sid, now⟩ st.sessionSenders }
      else st
    | none => st
  match ev.senderId with
  | some sid =>
    if sid ≠ "" && !(strStartsWith ev.content "/halt")
        && !(strStartsWith ev.content "/unhalt") then
      if setHas st1.stoppedSessions sid then
        { st1 with stoppedSessions := setDel st1.stoppedSessions sid }
      else st1
    else st1
  | none => st1

/-- The halt gate query: membership in `stoppedSessions`. -/
def isHalted (u : String) (stopped : List String) : Bool :=
  setHas stopped u

/-- The `/halt` command handler (index.ts lines 680-698): add
`ctx.senderId ?? "default"` to `stoppedSessions` and return the halted
text. -/
def haltCommand (senderId : Option String) (stopped : List String) :
    List String × String :=
  let key := senderId.getD "default"
  (setAdd stopped key,
   "Agent halted. Tool calls will be blocked until you send a new message.")

/-- The `/unhalt` command handler (index.ts lines 700-714): remove the
key when halted, otherwise report that the agent is not halted. -/
def unhaltCommand (senderId : Option String) (stopped : List String) :
    List String × String :=
  let key := senderId.getD "default"
  if setHas stopped key then
    (setDel stopped key, "Agent resumed. Tool calls are now enabled.")
  else
    (stopped, "Agent is not currently halted.")

/-- A stored bot account: `{ token, url? }` (index.ts line 579). -/
structure BotAccount where
  token : String
  url : Option String
deriving DecidableEq

/-- The `botAccounts` map, keyed by account name or alias. -/
abbrev Registry := List (String × BotAccount)

/-- One raw configured account: `{ botToken?, baseUrl?, name? }`
(index.ts line 570). -/
structure RawAccount where
  botToken : Option String
  baseUrl : Option String
  name : Option String

/-- One step of the registry-building loop (index.ts lines 582-598):
accounts without a truthy `botToken` are skipped; each kept account is
stored under its configuration key and, when a truthy `name` alias is
present, additionally under that alias. -/
def addRawAccount (defaultBaseUrl : Option String) (reg : Registry)
    (kv : String × RawAccount) : Registry :=
  let acc := kv.2
  if truthy acc.botToken then
    let stored : BotAccount := ⟨acc.botToken.getD "", jsOr acc.baseUrl defaultBaseUrl⟩
    let reg1 := mapSet reg kv.1 stored
    if truthy acc.name then mapSet reg1 (acc.name.getD "") stored else reg1
  else reg

/-- Registry construction (index.ts lines 579-607): fold the configured
channel accounts, then register the plugin-config/environment token
under the reserved key `"default"` when present. -/
def buildRegistry (accounts : List (String × RawAccount))
    (envToken : Option String) (defaultBaseUrl : Option String) : Registry :=
  let reg := accounts.foldl (addRawAccount defaultBaseUrl) []
  if truthy envToken then
    mapSet reg "default" ⟨envToken.getD "", defaultBaseUrl⟩
  else reg

/-- Try to capture the regex group `([^:]+)` directly after a literal
pattern anchored at the start of the string. -/
def captureAfter (pat : String) (k : String) : Option String :=
  if strStartsWith k pat then
    let name : String := ⟨(k.data.drop pat.data.length).takeWhile (fun c => c ≠ ':')⟩
    if name = "" then none else some name
  else none

/-- `extractAgentFromSessionKey` (index.ts lines 616-624): match
`/^agent:([^:]+)/`, then `/^session:agent:([^:]+)/` as fallback. -/
def extractAgentFromSessionKey : Option String → Option String
  | none => none
  | some k =>
    if k = "" then none
    else
      match captureAfter "agent:" k with
      | some a => some a
      | none => captureAfter "session:agent:" k

/-- Account lookup inside `getClient` (index.ts lines 630-639): the
agent hint wins if registered, otherwise the `"default"` account,
otherwise the first inserted account; the selected account name falls
back to `"default"` (or `"none"` when the registry is empty). -/
def resolveAccount (reg : Registry) (agentId : Option String) :
    Option BotAccount × String :=
  let account0 := if truthy agentId then mapGet reg (agentId.getD "") else none
  match account0 with
  | some a => (some a, agentId.getD "")
  | none =>
    match mapGet reg "default" with
    | some d => (some d, "default")
    | none =>
      match reg.head? with
      | some p => (some p.2, "default")
      | none => (none, "none")

/-- The constructor arguments of `MattermostClient` that its posting
behaviour depends on (mattermost.ts lines 27-35, 210-212). -/
structure ClientConfig where
  webhookUrl : Option String
  baseUrl : Option String
  botToken : Option String
deriving DecidableEq

/-- Static plugin configuration after `register` has run
(index.ts lines 579-675). -/
structure Config where
  registry : Registry
  webhookUrl : Option String
  defaultBaseUrl : Option String
  excludeTools : List String
  includeResults : Bool
  postToConversation : Bool
  enableHaltCommands : Bool

/-- `getClient` (index.ts lines 627-660): extract the agent from the
session key, pick the account, and return `null` exactly when neither a
truthy account token nor a webhook URL is available. -/
def getClient (cfg : Config) (sessionKey : Option String) :
    Option ClientConfig × String :=
  let agentId := extractAgentFromSessionKey sessionKey
  let (account, accountName) := resolveAccount cfg.registry agentId
  let tokenOk :=
    match account with
    | some a => a.token ≠ ""
    | none => false
  if !tokenOk && !truthy cfg.webhookUrl then
    (none, accountName)
  else
    (some ⟨cfg.webhookUrl,
           jsOr (account.bind (fun a => a.url)) cfg.defaultBaseUrl,
           account.map (fun a => a.token)⟩,
     accountName)

/-- `MattermostClient.hasRestApi` (mattermost.ts lines 210-212). -/
def hasRestApi (c : ClientConfig) : Bool :=
  truthy c.baseUrl && truthy c.botToken

/-- The 30-minute freshness window, in milliseconds
(index.ts line 804). -/
def freshnessWindowMs : Nat := 30 * 60 * 1000

/-- The subagent/cron exclusion check on an optional session key
(index.ts line 805): `sessionKey?.includes(":subagent:") ||
sessionKey?.includes(":cron:")`, falsy when the key is absent. -/
def hasExclusionMarker : Option String → Bool
  | some k => containsSub k ":subagent:" || containsSub k ":cron:"
  | none => false

/-- The sender-resolution block of `before_tool_call`
(index.ts lines 791-812, repeated at lines 897-912): exact session-key
match first; otherwise the account-level link, accepted only when fresh
(strictly under 30 minutes old) and the session key carries no
subagent/cron marker. -/
def resolveSender (sessionKey : Option String) (accountName : String)
    (now : Nat) (tbl : SenderTable) : Option String :=
  match mapGet tbl (sessionKey.getD "") with
  | some e => some e.senderId
  | none =>
    match mapGet tbl accountName with
    | some e =>
      let isFresh := now - e.timestamp < freshnessWindowMs
      let isSub := hasExclusionMarker sessionKey
      if isFresh && !isSub then some e.senderId else none
    | none => none

/-- A posting attempt made by a handler: the primary direct-message
post, the primary webhook post, or the in-catch webhook fallback. -/
inductive PostAttempt
  | dm (userId : String)
  | webhook
  | fallbackWebhook
deriving DecidableEq

/-- A block directive returned to the host runtime
(index.ts lines 820-823). -/
structure BlockDirective where
  block : Bool
  blockReason : String
deriving DecidableEq

/-- A `pendingCalls` entry (index.ts line 423). -/
structure PendingEntry where
  postId : Option String
  toolName : String
  startTime : Nat
deriving DecidableEq

/-- The module-level mutable state touched by the tool-call handlers. -/
structure PluginState where
  sessionSenders : SenderTable
  stoppedSessions : List String
  lastSessionKey : Option String
  pendingCalls : List (String × PendingEntry)

/-- Outcome oracles for the network posts a handler may perform: each is
either a thrown exception (`Except.error`) or a post id
(`Except.ok`). -/
structure PostEnv where
  dmResult : Except String (Option String)
  webhookResult : Except String (Option String)
  fallbackResult : Except String (Option String)

/-- Everything observable about one run of the `before_tool_call`
handler: the state afterwards, the value returned to the host, the
posting attempts made, and any exception escaping the handler. -/
structure BeforeResult where
  state : PluginState
  ret : Option BlockDirective
  attempts : List PostAttempt
  escaped : Option String

/-- The `before_tool_call` handler (index.ts lines 762-855): store the
session key, skip excluded tools, select the client, resolve the
sender, consult the halt gate, then post (direct message when the REST
API and a resolved sender are available, webhook otherwise) inside a
try/catch whose catch makes one webhook fallback attempt and swallows
its failure. -/
def beforeToolCall (cfg : Config) (toolName : String)
    (sessionKey : Option String) (now : Nat) (env : PostEnv)
    (st : PluginState) : BeforeResult :=
  let st := { st with lastSessionKey := sessionKey }
  if toolName ∈ cfg.excludeTools then
    { state := st, ret := none, attempts := [], escaped := none }
  else
    match getClient cfg sessionKey with
    | (none, _) => { state := st, ret := none, attempts := [], escaped := none }
    | (some client, accountName) =>
      let senderId := resolveSender sessionKey accountName now st.sessionSenders
      if cfg.enableHaltCommands && truthy senderId
          && setHas st.stoppedSessions (senderId.getD "") then
        { state := st,
          ret := some ⟨true, "Agent interaction halted via /halt command."⟩,
          attempts := [], escaped := none }
      else
        let toolCallId :=
          sessionKey.getD "default" ++ "-" ++ toolName ++ "-" ++ toString now
        let useDm := cfg.postToConversation && hasRestApi client && truthy senderId
        let primary := if useDm then env.dmResult else env.webhookResult
        let firstTry := if useDm then PostAttempt.dm (senderId.getD "")
                        else PostAttempt.webhook
        match primary with
        | Except.ok postId =>
          let entry : PendingEntry := ⟨postId, toolName, now⟩
          let st' := { st with pendingCalls := mapSet st.pendingCalls toolCallId entry }
          { state := st', ret := none, attempts := [firstTry], escaped := none }
        | Except.error _ =>
          match env.fallbackResult with
          | Except.ok _ =>
            { state := st, ret := none,
              attempts := [firstTry, PostAttempt.fallbackWebhook], escaped := none }
          | Except.error _ =>
            { state := st, ret := none,
              attempts := [firstTry, PostAttempt.fallbackWebhook], escaped := none }

/-- Everything observable about one run of the fire-and-forget
`postResult` body of the `tool_result_persist` handler. -/
structure ResultOutcome where
  attempts : List PostAttempt
  escaped : Option String

/-- The `tool_result_persist` handler (index.ts lines 860-937): skip
when results are disabled or the tool is excluded; otherwise the
fire-and-forget `postResult` selects the client from the last-seen
session key, resolves the sender with the same logic as
`before_tool_call`, posts, and on failure re-runs `getClient` and makes
one webhook fallback attempt, swallowing every failure. -/
def toolResultPersist (cfg : Config) (toolName : String) (now : Nat)
    (env : PostEnv) (st : PluginState) : ResultOutcome :=
  if !cfg.includeResults || toolName ∈ cfg.excludeTools then
    { attempts := [], escaped := none }
  else
    match getClient cfg st.lastSessionKey with
    | (none, _) => { attempts := [], escaped := none }
    | (some client, accountName) =>
      let senderId := resolveSender st.lastSessionKey accountName now st.sessionSenders
      let useDm := cfg.postToConversation && hasRestApi client && truthy senderId
      let primary := if useDm then env.dmResult else env.webhookResult
      let firstTry := if useDm then PostAttempt.dm (senderId.getD "")
                      else PostAttempt.webhook
      match primary with
      | Except.ok _ => { attempts := [firstTry], escaped := none }
      | Except.error _ =>
        match (getClient cfg st.lastSessionKey).1 with
        | some _ =>
          match env.fallbackResult with
          | Except.ok _ =>
            { attempts := [firstTry, PostAttempt.fallbackWebhook], escaped := none }
          | Except.error _ =>
            { attempts := [firstTry, PostAttempt.fallbackWebhook], escaped := none }
        | none => { attempts := [firstTry], escaped := none }

theorem mapGet_mapSet_self {α : Type} (m : List (String × α)) (k : String) (v : α) :
    mapGet (mapSet m k v) k = some v := by
  induction m with
  | nil => simp [mapSet, mapGet]
  | cons p rest ih =>
    obtain ⟨k', v'⟩ := p
    by_cases h : k' = k
    · simp [mapSet, mapGet, h]
    · simp [mapSet, mapGet, h, ih]

theorem mapGet_mapSet_ne {α : Type} {k k' : String} (h : k' ≠ k)
    (m : List (String × α)) (v : α) :
    mapGet (mapSet m k' v) k = mapGet m k := by
  induction m with
  | nil => simp [mapSet, mapGet, h]
  | cons p rest ih =>
    obtain ⟨k0, v0⟩ := p
    by_cases h0 : k0 = k'
    · subst h0
      simp only [mapSet, if_pos rfl, mapGet, if_neg h]
    · simp only [mapSet, if_neg h0, mapGet]
      by_cases hk : k0 = k
      · simp [hk]
      · simp [hk, ih]

theorem mapGet_mapSet_keep {α : Type} {m : List (String × α)} {k : String} {v : α}
    (h : mapGet m k = some v) (k' : String) :
    mapGet (mapSet m k' v) k = some v := by
  by_cases hk : k' = k
  · subst hk; exact mapGet_mapSet_self m k' v
  · rw [mapGet_mapSet_ne hk]; exact h

theorem setHas_setAdd_self (s : List String) (x : String) :
    setHas (setAdd s x) x = true := by
  by_cases h : x ∈ s <;> simp [setHas, setAdd, h]

theorem setHas_setDel_self (s : List String) (x : String) :
    setHas (setDel s x) x = false := by
  simp [setHas, setDel, List.mem_filter]

/-- C8: unhalt is a safe no-op when not halted — for every recipient not
in the halted set, the `/unhalt` handler returns the textual "not
halted" response and leaves the halted set unchanged (and, being a
total function, never throws). -/
theorem c8_unhalt_safe_noop (U : String) (stopped : List String)
    (h : isHalted U stopped = false) :
    unhaltCommand (some U) stopped = (stopped, "Agent is not currently halted.") := by
  unfold isHalted at h
  simp [unhaltCommand, h]

theorem c8_unhalt_safe_noop_witness :
    isHalted "alice" ["bob"] = false ∧
    unhaltCommand (some "alice") ["bob"] = (["bob"], "Agent is not currently halted.") :=
  ⟨by decide, c8_unhalt_safe_noop "alice" ["bob"] (by decide)⟩

/-- C4: halt gate state machine — after `halt(U)` the recipient is
halted; an ordinary message (content "hello") from `U` auto-resumes
(clears the halted state); but a message whose content is itself a halt
command ("/halt") leaves the halted state in place. -/
theorem c4_halt_state_machine (U : String) (s0 : List String) (tbl : SenderTable)
    (skMeta : Option String) (aid cid : String) (n1 n2 : Nat) (hU : U ≠ "") :
    isHalted U (haltCommand (some U) s0).1 = true ∧
    isHalted U (messageReceived ⟨some U, skMeta, "hello"⟩ ⟨aid, cid⟩ n1
        ⟨tbl, (haltCommand (some U) s0).1⟩).stoppedSessions = false ∧
    isHalted U (messageReceived ⟨some U, skMeta, "/halt"⟩ ⟨aid, cid⟩ n2
        ⟨tbl, (haltCommand (some U) s0).1⟩).stoppedSessions = true := by
  have hadd : setHas (haltCommand (some U) s0).1 U = true := by
    simpa [haltCommand] using setHas_setAdd_self s0 U
  refine ⟨hadd, ?_, ?_⟩
  · have h1 : strStartsWith "hello" "/halt" = false := by decide
    have h2 : strStartsWith "hello" "/unhalt" = false := by decide
    simp [messageReceived, h1, h2, hU, isHalted, hadd, setHas_setDel_self]
  · have h1 : strStartsWith "/halt" "/halt" = true := by decide
    simp [messageReceived, h1, hU, isHalted, hadd]

theorem c4_halt_state_machine_witness :
    ("alice" : String) ≠ "" ∧
    (isHalted "alice" (haltCommand (some "alice") []).1 = true ∧
     isHalted "alice" (messageReceived ⟨some "alice", none, "hello"⟩ ⟨"ops", "conv1"⟩ 5
         ⟨[], (haltCommand (some "alice") []).1⟩).stoppedSessions = false ∧
     isHalted "alice" (messageReceived ⟨some "alice", none, "/halt"⟩ ⟨"ops", "conv1"⟩ 6
         ⟨[], (haltCommand (some "alice") []).1⟩).stoppedSessions = true) :=
  ⟨by decide, c4_halt_state_machine "alice" [] [] none "ops" "conv1" 5 6 (by decide)⟩

theorem recordSenderLinks_get_session (S A : String) (e : SenderEntry)
    (tbl : SenderTable) (hS : S ≠ "") :
    mapGet (recordSenderLinks (some S) A e tbl) S = some e := by
  have h1 : mapGet (if strStartsWith S "agent:" then mapSet tbl S e
      else mapSet (mapSet tbl S e) ("agent:" ++ S) e) S = some e := by
    by_cases hag : strStartsWith S "agent:"
    · simp [hag, mapGet_mapSet_self]
    · simp only [hag, Bool.false_eq_true, if_false]
      exact mapGet_mapSet_keep (mapGet_mapSet_self tbl S e) _
  by_cases hA : A = ""
  · simpa [recordSenderLinks, truthy, hS, hA] using h1
  · simpa [recordSenderLinks, truthy, hS, hA] using
      mapGet_mapSet_keep (mapGet_mapSet_keep h1 A) ("agent:" ++ A ++ ":main")

theorem recordSenderLinks_get_normalized (S A : String) (e : SenderEntry)
    (tbl : SenderTable) (hS : S ≠ "") :
    mapGet (recordSenderLinks (some S) A e tbl) (normalizeKey S) = some e := by
  have h1 : mapGet (if strStartsWith S "agent:" then mapSet tbl S e
      else mapSet (mapSet tbl S e) ("agent:" ++ S) e) (normalizeKey S) = some e := by
    by_cases hag : strStartsWith S "agent:"
    · simp [hag, normalizeKey, mapGet_mapSet_self]
    · simp only [hag, Bool.false_eq_true, if_false, normalizeKey]
      exact mapGet_mapSet_self (mapSet tbl S e) ("agent:" ++ S) e
  by_cases hA : A = ""
  · simpa [recordSenderLinks, truthy, hS, hA] using h1
  · simpa [recordSenderLinks, truthy, hS, hA] using
      mapGet_mapSet_keep (mapGet_mapSet_keep h1 A) ("agent:" ++ A ++ ":main")

theorem recordSenderLinks_get_account (S A : String) (e : SenderEntry)
    (tbl : SenderTable) (hS : S ≠ "") (hA : A ≠ "") :
    mapGet (recordSenderLinks (some S) A e tbl) A = some e := by
  have h1 : mapGet (mapSet (if strStartsWith S "agent:" then mapSet tbl S e
      else mapSet (mapSet tbl S e) ("agent:" ++ S) e) A e) A = some e :=
    mapGet_mapSet_self _ A e
  simpa [recordSenderLinks, truthy, hS, hA] using
    mapGet_mapSet_keep h1 ("agent:" ++ A ++ ":main")

/-- C2: exact-session resolution always wins — after recording a link
for session `S`, resolving with the same session key returns the
recorded recipient for every later time and every account key,
regardless of the freshness window and of exclusion markers in `S`. -/
theorem c2_exact_session_wins (tbl : SenderTable) (S A R : String) (t t' : Nat)
    (hS : S ≠ "") :
    resolveSender (some S) A t' (recordSenderLinks (some S) A ⟨R, t⟩ tbl) = some R := by
  have h := recordSenderLinks_get_session S A ⟨R, t⟩ tbl hS
  simp [resolveSender, h]

theorem c2_exact_session_wins_witness :
    ("agent:ops:cron:job" : String) ≠ "" ∧
    resolveSender (some "agent:ops:cron:job") "ops" 99999999999
      (recordSenderLinks (some "agent:ops:cron:job") "ops" ⟨"alice", 0⟩ [])
      = some "alice" :=
  ⟨by decide,
   c2_exact_session_wins [] "agent:ops:cron:job" "ops" "alice" 0 99999999999 (by decide)⟩

/-- C7: recording a sender link writes it under the literal session
key, the normalized session key (canonical `agent:` marker ensured) and
the account key, and a lookup by any of the three finds the same
`{recipientId, recordedAt}` entry. -/
theorem c7_record_triple_keyed (tbl : SenderTable) (S A R : String) (t : Nat)
    (hS : S ≠ "") (hA : A ≠ "") :
    mapGet (recordSenderLinks (some S) A ⟨R, t⟩ tbl) S = some ⟨R, t⟩ ∧
    mapGet (recordSenderLinks (some S) A ⟨R, t⟩ tbl) (normalizeKey S) = some ⟨R, t⟩ ∧
    mapGet (recordSenderLinks (some S) A ⟨R, t⟩ tbl) A = some ⟨R, t⟩ :=
  ⟨recordSenderLinks_get_session S A ⟨R, t⟩ tbl hS,
   recordSenderLinks_get_normalized S A ⟨R, t⟩ tbl hS,
   recordSenderLinks_get_account S A ⟨R, t⟩ tbl hS hA⟩

theorem c7_record_triple_keyed_witness :
    ("conv1" : String) ≠ "" ∧ ("ops" : String) ≠ "" ∧
    (mapGet (recordSenderLinks (some "conv1") "ops" ⟨"alice", 7⟩ []) "conv1"
        = some ⟨"alice", 7⟩ ∧
     mapGet (recordSenderLinks (some "conv1") "ops" ⟨"alice", 7⟩ [])
        (normalizeKey "conv1") = some ⟨"alice", 7⟩ ∧
     mapGet (recordSenderLinks (some "conv1") "ops" ⟨"alice", 7⟩ []) "ops"
        = some ⟨"alice", 7⟩) :=
  ⟨by decide, by decide,
   c7_record_triple_keyed [] "conv1" "ops" "alice" 7 (by decide) (by decide)⟩

/-- C1: account-level fallback — after a record for session `S` under
account `A`, a later resolve for a different session `S'` (no link
under `S'` or its normalized form) sharing account `A` returns the
recorded recipient exactly when the record is less than 30 minutes old
and `S'` carries no subagent/cron exclusion marker, and returns none
otherwise. -/
theorem c1_account_fallback (tbl : SenderTable) (S A R S' : String) (t t' : Nat)
    (hS : S ≠ "") (hA : A ≠ "") (_later : t ≤ t')
    (hmiss : mapGet (recordSenderLinks (some S) A ⟨R, t⟩ tbl) S' = none)
    (_hmissNorm : mapGet (recordSenderLinks (some S) A ⟨R, t⟩ tbl)
        (normalizeKey S') = none) :
    resolveSender (some S') A t' (recordSenderLinks (some S) A ⟨R, t⟩ tbl) =
      if t' - t < freshnessWindowMs ∧ hasExclusionMarker (some S') = false
      then some R else none := by
  have hacct := recordSenderLinks_get_account S A ⟨R, t⟩ tbl hS hA
  simp only [resolveSender, Option.getD_some, hmiss, hacct]
  by_cases hfresh : t' - t < freshnessWindowMs <;>
    by_cases hmark : hasExclusionMarker (some S') = true <;>
      simp [hfresh, hmark]

theorem c1_account_fallback_witness :
    (("conv1" : String) ≠ "" ∧ ("ops" : String) ≠ "" ∧ (0 : Nat) ≤ 1000 ∧
     mapGet (recordSenderLinks (some "conv1") "ops" ⟨"alice", 0⟩ [])
        "agent:ops:other" = none ∧
     mapGet (recordSenderLinks (some "conv1") "ops" ⟨"alice", 0⟩ [])
        (normalizeKey "agent:ops:other") = none) ∧
    resolveSender (some "agent:ops:other") "ops" 1000
      (recordSenderLinks (some "conv1") "ops" ⟨"alice", 0⟩ []) =
      if 1000 - 0 < freshnessWindowMs ∧ hasExclusionMarker (some "agent:ops:other") = false
      then some "alice" else none :=
  ⟨⟨by decide, by decide, by decide, by decide, by decide⟩,
   c1_account_fallback [] "conv1" "ops" "alice" "agent:ops:other" 0 1000
     (by decide) (by decide) (by decide) (by decide) (by decide)⟩

/-- C9: resolution is idempotent and read-only — a `before_tool_call`
run never modifies the `sessionSenders` link table, so resolving twice
with identical arguments and no intervening record (in particular,
before and after such a run) yields the same result both times. -/
theorem c9_resolve_readonly_idempotent (cfg : Config) (toolName : String)
    (sessionKey : Option String) (now : Nat) (env : PostEnv) (st : PluginState) :
    (beforeToolCall cfg toolName sessionKey now env st).state.sessionSenders
        = st.sessionSenders ∧
    ∀ (s : Option String) (a : String) (n : Nat),
      resolveSender s a n
          (beforeToolCall cfg toolName sessionKey now env st).state.sessionSenders
        = resolveSender s a n st.sessionSenders := by
  have h : (beforeToolCall cfg toolName sessionKey now env st).state.sessionSenders
      = st.sessionSenders := by
    unfold beforeToolCall
    dsimp only
    repeat' split <;> try rfl
  exact ⟨h, fun s a n => by rw [h]⟩

/-- C3: the halt gate blocks tool calls — with halt commands enabled,
when a non-excluded `before_tool_call` with an available client is
attributed by sender resolution to a recipient in the halted set, the
handler returns a block directive (`block := true` with a user-facing
reason) to the host and makes no posting attempt. -/
theorem c3_halt_gate_blocks (cfg : Config) (toolName : String)
    (sessionKey : Option String) (now : Nat) (env : PostEnv) (st : PluginState)
    (client : ClientConfig) (accountName : String) (u : String)
    (hEnable : cfg.enableHaltCommands = true)
    (hTool : toolName ∉ cfg.excludeTools)
    (hClient : getClient cfg sessionKey = (some client, accountName))
    (hResolve : resolveSender sessionKey accountName now st.sessionSenders = some u)
    (hU : u ≠ "")
    (hHalted : isHalted u st.stoppedSessions = true) :
    (beforeToolCall cfg toolName sessionKey now env st).ret
        = some ⟨true, "Agent interaction halted via /halt command."⟩ ∧
    (beforeToolCall cfg toolName sessionKey now env st).attempts = [] := by
  unfold isHalted at hHalted
  constructor <;>
    simp [beforeToolCall, hTool, hClient, hResolve, hEnable, truthy, hU, hHalted]

/-- Concrete plugin configuration used by witnesses: one default bot
account plus a webhook, halt commands enabled. -/
def witnessCfg : Config :=
  { registry := [("default", ⟨"tok", none⟩)]
    webhookUrl := some "https://mm.example/hook"
    defaultBaseUrl := some "https://mm.example"
    excludeTools := ["message"]
    includeResults := true
    postToConversation := true
    enableHaltCommands := true }

/-- Concrete plugin state used by witnesses: one session link for
`sess1` and recipient `alice` halted. -/
def witnessState : PluginState :=
  { sessionSenders := [("sess1", ⟨"alice", 0⟩)]
    stoppedSessions := ["alice"]
    lastSessionKey := some "sess1"
    pendingCalls := [] }

theorem c3_halt_gate_blocks_witness :
    (witnessCfg.enableHaltCommands = true ∧
     "exec" ∉ witnessCfg.excludeTools ∧
     getClient witnessCfg (some "sess1") =
       (some ⟨some "https://mm.example/hook", some "https://mm.example", some "tok"⟩,
        "default") ∧
     resolveSender (some "sess1") "default" 10 witnessState.sessionSenders
       = some "alice" ∧
     ("alice" : String) ≠ "" ∧
     isHalted "alice" witnessState.stoppedSessions = true) ∧
    ((beforeToolCall witnessCfg "exec" (some "sess1") 10
        ⟨Except.ok none, Except.ok none, Except.ok none⟩ witnessState).ret
        = some ⟨true, "Agent interaction halted via /halt command."⟩ ∧
     (beforeToolCall witnessCfg "exec" (some "sess1") 10
        ⟨Except.ok none, Except.ok none, Except.ok none⟩ witnessState).attempts = []) :=
  ⟨⟨by decide, by decide, by decide, by decide, by decide, by decide⟩,
   c3_halt_gate_blocks witnessCfg "exec" (some "sess1") 10
     ⟨Except.ok none, Except.ok none, Except.ok none⟩ witnessState
     ⟨some "https://mm.example/hook", some "https://mm.example", some "tok"⟩
     "default" "alice" (by decide) (by decide) (by decide) (by decide)
     (by decide) (by decide)⟩

theorem beforeToolCall_escaped_none (cfg : Config) (toolName : String)
    (sessionKey : Option String) (now : Nat) (env : PostEnv) (st : PluginState) :
    (beforeToolCall cfg toolName sessionKey now env st).escaped = none := by
  unfold beforeToolCall
  dsimp only
  repeat' split <;> try rfl

theorem toolResultPersist_escaped_none (cfg : Config) (toolName : String)
    (now : Nat) (env : PostEnv) (st : PluginState) :
    (toolResultPersist cfg toolName now env st).escaped = none := by
  unfold toolResultPersist
  dsimp only
  repeat' split <;> try rfl

theorem beforeToolCall_dm_fallback (cfg : Config) (toolName : String)
    (sessionKey : Option String) (now : Nat) (env : PostEnv) (st : PluginState)
    (u msg : String)
    (hhead : (beforeToolCall cfg toolName sessionKey now env st).attempts.head?
        = some (PostAttempt.dm u))
    (herr : env.dmResult = Except.error msg) :
    (beforeToolCall cfg toolName sessionKey now env st).attempts
        = [PostAttempt.dm u, PostAttempt.fallbackWebhook] := by
  unfold beforeToolCall at hhead ⊢
  dsimp only at hhead ⊢
  by_cases h1 : toolName ∈ cfg.excludeTools
  · simp only [if_pos h1] at hhead; simp at hhead
  · simp only [if_neg h1] at hhead ⊢
    generalize hgc : getClient cfg sessionKey = gc at hhead ⊢
    obtain ⟨oc, acct⟩ := gc
    rcases oc with _ | client
    · simp at hhead
    · dsimp only at hhead ⊢
      by_cases h2 : (cfg.enableHaltCommands
          && truthy (resolveSender sessionKey acct now st.sessionSenders)
          && setHas st.stoppedSessions
              ((resolveSender sessionKey acct now st.sessionSenders).getD "")) = true
      · simp only [if_pos h2] at hhead; simp at hhead
      · simp only [if_neg h2] at hhead ⊢
        by_cases h3 : (cfg.postToConversation && hasRestApi client
            && truthy (resolveSender sessionKey acct now st.sessionSenders)) = true
        · simp only [if_pos h3] at hhead ⊢
          rw [herr] at hhead ⊢
          dsimp only at hhead ⊢
          rcases henv : env.fallbackResult with pid | e <;> rw [henv] at hhead <;>
            dsimp only at hhead ⊢ <;> simp at hhead <;> simp [hhead]
        · simp only [if_neg h3] at hhead ⊢
          rcases henv : env.webhookResult with pid | e <;> rw [henv] at hhead <;>
            dsimp only at hhead
          · rcases henv2 : env.fallbackResult with p2 | e2 <;> rw [henv2] at hhead <;>
              simp at hhead
          · simp at hhead

theorem toolResultPersist_dm_fallback (cfg : Config) (toolName : String)
    (now : Nat) (env : PostEnv) (st : PluginState) (u msg : String)
    (hhead : (toolResultPersist cfg toolName now env st).attempts.head?
        = some (PostAttempt.dm u))
    (herr : env.dmResult = Except.error msg) :
    (toolResultPersist cfg toolName now env st).attempts
        = [PostAttempt.dm u, PostAttempt.fallbackWebhook] := by
  unfold toolResultPersist at hhead ⊢
  dsimp only at hhead ⊢
  by_cases h1 : (!cfg.includeResults || decide (toolName ∈ cfg.excludeTools)) = true
  · simp only [if_pos h1] at hhead; simp at hhead
  · simp only [if_neg h1] at hhead ⊢
    generalize hgc : getClient cfg st.lastSessionKey = gc at hhead ⊢
    obtain ⟨oc, acct⟩ := gc
    rcases oc with _ | client
    · simp at hhead
    · dsimp only at hhead ⊢
      by_cases h3 : (cfg.postToConversation && hasRestApi client
          && truthy (resolveSender st.lastSessionKey acct now st.sessionSenders)) = true
      · simp only [if_pos h3] at hhead ⊢
        rw [herr] at hhead ⊢
        dsimp only at hhead ⊢
        rcases henv : env.fallbackResult with pid | e <;> rw [henv] at hhead <;>
          dsimp only at hhead ⊢ <;> simp at hhead <;> simp [hhead]
      · simp only [if_neg h3] at hhead ⊢
        rcases henv : env.webhookResult with pid | e <;> rw [henv] at hhead <;>
          dsimp only at hhead
        · rcases henv2 : env.fallbackResult with p2 | e2 <;> rw [henv2] at hhead <;>
            simp at hhead
        · simp at hhead

/-- C5: posting failures are contained — for both the
`before_tool_call` handler and the fire-and-forget result poster of
`tool_result_persist`, no exception ever escapes the handler, and when
the primary post went to the direct channel and threw, exactly one
webhook fallback post is attempted. -/
theorem c5_posting_failures_contained :
    (∀ (cfg : Config) (toolName : String) (sessionKey : Option String)
        (now : Nat) (env : PostEnv) (st : PluginState),
      (beforeToolCall cfg toolName sessionKey now env st).escaped = none) ∧
    (∀ (cfg : Config) (toolName : String) (sessionKey : Option String)
        (now : Nat) (env : PostEnv) (st : PluginState) (u msg : String),
      (beforeToolCall cfg toolName sessionKey now env st).attempts.head?
          = some (PostAttempt.dm u) →
      env.dmResult = Except.error msg →
      (beforeToolCall cfg toolName sessionKey now env st).attempts
          = [PostAttempt.dm u, PostAttempt.fallbackWebhook]) ∧
    (∀ (cfg : Config) (toolName : String) (now : Nat) (env : PostEnv)
        (st : PluginState),
      (toolResultPersist cfg toolName now env st).escaped = none) ∧
    (∀ (cfg : Config) (toolName : String) (now : Nat) (env : PostEnv)
        (st : PluginState) (u msg : String),
      (toolResultPersist cfg toolName now env st).attempts.head?
          = some (PostAttempt.dm u) →
      env.dmResult = Except.error msg →
      (toolResultPersist cfg toolName now env st).attempts
          = [PostAttempt.dm u, PostAttempt.fallbackWebhook]) :=
  ⟨beforeToolCall_escaped_none,
   fun cfg toolName sessionKey now env st u msg hhead herr =>
     beforeToolCall_dm_fallback cfg toolName sessionKey now env st u msg hhead herr,
   toolResultPersist_escaped_none,
   fun cfg toolName now env st u msg hhead herr =>
     toolResultPersist_dm_fallback cfg toolName now env st u msg hhead herr⟩

/-- A plugin state with nobody halted, used by witnesses that must
reach the posting phase. -/
def runningState : PluginState :=
  { sessionSenders := [("sess1", ⟨"alice", 0⟩)]
    stoppedSessions := []
    lastSessionKey := some "sess1"
    pendingCalls := [] }

/-- A posting environment in which every network call throws. -/
def failingEnv : PostEnv :=
  ⟨Except.error "boom", Except.error "boom2", Except.error "boom3"⟩

theorem c5_posting_failures_contained_witness :
    ((beforeToolCall witnessCfg "exec" (some "sess1") 10 failingEnv
        runningState).attempts.head? = some (PostAttempt.dm "alice") ∧
     failingEnv.dmResult = Except.error "boom" ∧
     (toolResultPersist witnessCfg "exec" 10 failingEnv
        runningState).attempts.head? = some (PostAttempt.dm "alice")) ∧
    ((beforeToolCall witnessCfg "exec" (some "sess1") 10 failingEnv
        runningState).escaped = none ∧
     (beforeToolCall witnessCfg "exec" (some "sess1") 10 failingEnv
        runningState).attempts
        = [PostAttempt.dm "alice", PostAttempt.fallbackWebhook] ∧
     (toolResultPersist witnessCfg "exec" 10 failingEnv
        runningState).escaped = none ∧
     (toolResultPersist witnessCfg "exec" 10 failingEnv
        runningState).attempts
        = [PostAttempt.dm "alice", PostAttempt.fallbackWebhook]) :=
  ⟨⟨by decide, rfl, by decide⟩,
   ⟨c5_posting_failures_contained.1 witnessCfg "exec" (some "sess1") 10
      failingEnv runningState,
    c5_posting_failures_contained.2.1 witnessCfg "exec" (some "sess1") 10
      failingEnv runningState "alice" "boom" (by decide) rfl,
    c5_posting_failures_contained.2.2.1 witnessCfg "exec" 10
      failingEnv runningState,
    c5_posting_failures_contained.2.2.2 witnessCfg "exec" 10
      failingEnv runningState "alice" "boom" (by decide) rfl⟩⟩

/-- The raw channel accounts of the C6 scenario:
`{default: tokenA, ops: tokenB}`. -/
def scenarioAccounts : List (String × RawAccount) :=
  [("default", ⟨some "tokenA", none, none⟩), ("ops", ⟨some "tokenB", none, none⟩)]

/-- The registry built from the C6 scenario accounts. -/
def scenarioRegistry : Registry := buildRegistry scenarioAccounts none none

/-- C6: account-registry resolution precedence — a hint matching a
registered key or alias wins; otherwise the account under the reserved
key "default"; otherwise the first-inserted account when any remain;
otherwise none.  In the scenario `{default: tokenA, ops: tokenB}`,
resolving "ops" yields the ops account and resolving "unknown-agent"
yields the default account. -/
theorem c6_registry_precedence :
    (∀ (reg : Registry) (hint : String) (a : BotAccount),
        hint ≠ "" → mapGet reg hint = some a →
        (resolveAccount reg (some hint)).1 = some a) ∧
    (∀ (reg : Registry) (hint : Option String) (d : BotAccount),
        (truthy hint = false ∨ mapGet reg (hint.getD "") = none) →
        mapGet reg "default" = some d →
        (resolveAccount reg hint).1 = some d) ∧
    (∀ (reg : Registry) (hint : Option String),
        (truthy hint = false ∨ mapGet reg (hint.getD "") = none) →
        mapGet reg "default" = none →
        (resolveAccount reg hint).1 = reg.head?.map Prod.snd) ∧
    (resolveAccount scenarioRegistry (some "ops")).1 = some ⟨"tokenB", none⟩ ∧
    (resolveAccount scenarioRegistry (some "unknown-agent")).1 = some ⟨"tokenA", none⟩ := by
  refine ⟨?_, ?_, ?_, by decide, by decide⟩
  · intro reg hint a hne hget
    simp [resolveAccount, truthy, hne, hget]
  · intro reg hint d hmiss hdef
    rcases hmiss with htr | hn
    · simp [resolveAccount, htr, hdef]
    · by_cases htr : truthy hint = true
      · simp [resolveAccount, htr, hn, hdef]
      · simp [resolveAccount, htr, hdef]
  · intro reg hint hmiss hdef
    have hacc : (if truthy hint = true
        then mapGet reg (hint.getD "") else none) = none := by
      rcases hmiss with htr | hn
      · simp [htr]
      · by_cases htr : truthy hint = true <;> simp [htr, hn]
    cases reg with
    | nil => simp [resolveAccount, hacc, hdef]
    | cons p rest => simp [resolveAccount, hacc, hdef]

theorem c6_registry_precedence_witness :
    (("opsx" : String) ≠ "" ∧
     mapGet scenarioRegistry "opsx" = none ∧
     mapGet scenarioRegistry "default" = some ⟨"tokenA", none⟩) ∧
    (resolveAccount scenarioRegistry (some "opsx")).1 = some ⟨"tokenA", none⟩ :=
  ⟨⟨by decide, by decide, by decide⟩,
   c6_registry_precedence.2.1 scenarioRegistry (some "opsx") ⟨"tokenA", none⟩
     (Or.inr (by decide)) (by decide)⟩

theorem mem_mapSet {α : Type} {m : List (String × α)} {k : String} {v : α} :
    ∀ p ∈ mapSet m k v, p ∈ m ∨ p = (k, v) := by
  induction m with
  | nil => intro p hp; simp [mapSet] at hp; simp [hp]
  | cons q rest ih =>
    obtain ⟨k0, v0⟩ := q
    intro p hp
    by_cases h : k0 = k
    · simp only [mapSet, if_pos h, List.mem_cons] at hp
      rcases hp with h1 | h1
      · right; exact h1
      · left; simp [h1]
    · simp only [mapSet, if_neg h, List.mem_cons] at hp
      rcases hp with h1 | h1
      · left; simp [h1]
      · rcases ih p h1 with h2 | h2
        · left; simp [h2]
        · right; exact h2

theorem mapGet_mem {α : Type} {m : List (String × α)} {k : String} {a : α}
    (h : mapGet m k = some a) : (k, a) ∈ m := by
  induction m with
  | nil => simp [mapGet] at h
  | cons q rest ih =>
    obtain ⟨k0, v0⟩ := q
    by_cases hk : k0 = k
    · simp only [mapGet, if_pos hk] at h
      obtain rfl : v0 = a := by simpa using h
      simp [hk]
    · simp only [mapGet, if_neg hk] at h
      simp [ih h]

theorem truthy_some {o : Option String} (h : truthy o = true) :
    o.getD "" ≠ "" := by
  cases o <;> simp [truthy] at h ⊢
  exact h

theorem addRawAccount_token {defaultBaseUrl : Option String} {reg : Registry}
    (kv : String × RawAccount)
    (hreg : ∀ p ∈ reg, p.2.token ≠ "") :
    ∀ p ∈ addRawAccount defaultBaseUrl reg kv, p.2.token ≠ "" := by
  intro p hp
  unfold addRawAccount at hp
  by_cases ht : truthy kv.2.botToken = true
  · simp only [ht, if_true] at hp
    have htok : kv.2.botToken.getD "" ≠ "" := truthy_some ht
    by_cases hn : truthy kv.2.name = true
    · simp only [hn, if_true] at hp
      rcases mem_mapSet p hp with h1 | h1
      · rcases mem_mapSet p h1 with h2 | h2
        · exact hreg p h2
        · simp [h2, htok]
      · simp [h1, htok]
    · simp only [hn] at hp
      rcases mem_mapSet p hp with h1 | h1
      · exact hreg p h1
      · simp [h1, htok]
  · simp only [ht] at hp
    exact hreg p hp

theorem buildRegistry_token (accounts : List (String × RawAccount))
    (envToken defaultBaseUrl : Option String) :
    ∀ p ∈ buildRegistry accounts envToken defaultBaseUrl, p.2.token ≠ "" := by
  have hfold : ∀ (l : List (String × RawAccount)) (acc : Registry),
      (∀ p ∈ acc, p.2.token ≠ "") →
      ∀ p ∈ l.foldl (addRawAccount defaultBaseUrl) acc, p.2.token ≠ "" := by
    intro l
    induction l with
    | nil => intro acc h; simpa using h
    | cons x xs ih =>
      intro acc h
      exact ih _ (addRawAccount_token x h)
  intro p hp
  unfold buildRegistry at hp
  by_cases he : truthy envToken = true
  · simp only [he, if_true] at hp
    rcases mem_mapSet p hp with h1 | h1
    · exact hfold accounts [] (by simp) p h1
    · simp [h1, truthy_some he]
  · simp only [he] at hp
    exact hfold accounts [] (by simp) p hp

theorem resolveAccount_cases {reg : Registry} {hint : Option String}
    {a : BotAccount} (h : (resolveAccount reg hint).1 = some a) :
    ∃ k, (k, a) ∈ reg := by
  unfold resolveAccount at h
  rcases h0 : (if truthy hint = true then mapGet reg (hint.getD "") else none)
      with _ | a0
  · rw [h0] at h
    dsimp only at h
    rcases hd : mapGet reg "default" with _ | d
    · rw [hd] at h
      dsimp only at h
      rcases hh : reg.head? with _ | p
      · rw [hh] at h; simp at h
      · rw [hh] at h
        dsimp only at h
        obtain rfl : p.2 = a := by simpa using h
        exact ⟨p.1, by simpa using List.mem_of_mem_head? hh⟩
    · rw [hd] at h
      dsimp only at h
      obtain rfl : d = a := by simpa using h
      exact ⟨"default", mapGet_mem hd⟩
  · rw [h0] at h
    dsimp only at h
    obtain rfl : a0 = a := by simpa using h
    by_cases ht : truthy hint = true
    · rw [if_pos ht] at h0
      exact ⟨hint.getD "", mapGet_mem h0⟩
    · rw [if_neg ht] at h0
      simp at h0

theorem resolveAccount_none_empty {reg : Registry} {hint : Option String}
    (h : (resolveAccount reg hint).1 = none) : reg = [] := by
  unfold resolveAccount at h
  rcases h0 : (if truthy hint = true then mapGet reg (hint.getD "") else none)
      with _ | a0
  · rw [h0] at h
    dsimp only at h
    rcases hd : mapGet reg "default" with _ | d
    · rw [hd] at h
      dsimp only at h
      rcases hh : reg.head? with _ | p
      · exact List.head?_eq_none_iff.mp hh
      · rw [hh] at h; simp at h
    · rw [hd] at h; simp at h
  · rw [h0] at h; simp at h

theorem getClient_isSome (accounts : List (String × RawAccount))
    (envToken d : Option String) (cfg : Config)
    (hreg : cfg.registry = buildRegistry accounts envToken d)
    (hguard : cfg.registry ≠ [] ∨ truthy cfg.webhookUrl = true)
    (sessionKey : Option String) :
    (getClient cfg sessionKey).1.isSome = true := by
  unfold getClient
  dsimp only
  generalize hra : resolveAccount cfg.registry (extractAgentFromSessionKey sessionKey) = ra
  obtain ⟨oa, name⟩ := ra
  rcases oa with _ | a
  · have hempty : cfg.registry = [] := resolveAccount_none_empty (by rw [hra])
    have hweb : truthy cfg.webhookUrl = true := by
      rcases hguard with hg | hg
      · exact absurd hempty hg
      · exact hg
    dsimp only
    simp [hweb]
  · obtain ⟨k, hk⟩ := resolveAccount_cases (a := a) (by rw [hra])
    have htok : a.token ≠ "" := by
      have hb := buildRegistry_token accounts envToken d (k, a) (hreg ▸ hk)
      simpa using hb
    dsimp only
    simp [htok]

theorem beforeToolCall_posts (cfg : Config) (toolName : String)
    (sessionKey : Option String) (now : Nat) (env : PostEnv) (st : PluginState)
    (hTool : toolName ∉ cfg.excludeTools)
    (hclient : (getClient cfg sessionKey).1.isSome = true)
    (hret : (beforeToolCall cfg toolName sessionKey now env st).ret = none) :
    (beforeToolCall cfg toolName sessionKey now env st).attempts ≠ [] := by
  unfold beforeToolCall at hret ⊢
  dsimp only at hret ⊢
  simp only [if_neg hTool] at hret ⊢
  generalize hgc : getClient cfg sessionKey = gc at hclient hret ⊢
  obtain ⟨oc, acct⟩ := gc
  rcases oc with _ | client
  · simp at hclient
  · dsimp only at hret ⊢
    by_cases h2 : (cfg.enableHaltCommands
        && truthy (resolveSender sessionKey acct now st.sessionSenders)
        && setHas st.stoppedSessions
            ((resolveSender sessionKey acct now st.sessionSenders).getD "")) = true
    · simp only [if_pos h2] at hret; simp at hret
    · simp only [if_neg h2] at hret ⊢
      generalize hp : (if (cfg.postToConversation && hasRestApi client
          && truthy (resolveSender sessionKey acct now st.sessionSenders)) = true
          then env.dmResult else env.webhookResult) = primary
      rcases primary with e | pid
      · cases henv : env.fallbackResult <;> dsimp only <;> simp
      · dsimp only; simp

/-- C10: once registration has succeeded (the registry built from the
configuration is non-empty or a webhook URL is configured), `getClient`
never returns a null client, so the null-client early return of
`before_tool_call` is unreachable and every non-excluded, non-blocked
tool call reaches a posting attempt. -/
theorem c10_no_null_client (accounts : List (String × RawAccount))
    (envToken d : Option String) (cfg : Config)
    (hreg : cfg.registry = buildRegistry accounts envToken d)
    (hguard : cfg.registry ≠ [] ∨ truthy cfg.webhookUrl = true) :
    (∀ sessionKey : Option String, (getClient cfg sessionKey).1.isSome = true) ∧
    (∀ (toolName : String) (sessionKey : Option String) (now : Nat)
        (env : PostEnv) (st : PluginState),
      toolName ∉ cfg.excludeTools →
      (beforeToolCall cfg toolName sessionKey now env st).ret = none →
      (beforeToolCall cfg toolName sessionKey now env st).attempts ≠ []) :=
  ⟨fun sessionKey => getClient_isSome accounts envToken d cfg hreg hguard sessionKey,
   fun toolName sessionKey now env st hTool hret =>
     beforeToolCall_posts cfg toolName sessionKey now env st hTool
       (getClient_isSome accounts envToken d cfg hreg hguard sessionKey) hret⟩

/-- A configuration whose registry is literally built by
`buildRegistry`, used by the C10 witness. -/
def c10Cfg : Config :=
  { registry := buildRegistry [("default", ⟨some "tok", none, none⟩)] none
      (some "https://mm.example")
    webhookUrl := some "https://mm.example/hook"
    defaultBaseUrl := some "https://mm.example"
    excludeTools := ["message"]
    includeResults := true
    postToConversation := true
    enableHaltCommands := false }

theorem c10_no_null_client_witness :
    (c10Cfg.registry = buildRegistry [("default", ⟨some "tok", none, none⟩)] none
        (some "https://mm.example") ∧
     c10Cfg.registry ≠ [] ∧
     "exec" ∉ c10Cfg.excludeTools ∧
     (beforeToolCall c10Cfg "exec" (some "sess1") 3 failingEnv runningState).ret
        = none) ∧
    ((getClient c10Cfg (some "sess1")).1.isSome = true ∧
     (beforeToolCall c10Cfg "exec" (some "sess1") 3 failingEnv
        runningState).attempts ≠ []) :=
  ⟨⟨rfl, by decide, by decide, by decide⟩,
   (c10_no_null_client [("default", ⟨some "tok", none, none⟩)] none
       (some "https://mm.example") c10Cfg rfl (Or.inl (by decide))).1
     (some "sess1"),
   (c10_no_null_client [("default", ⟨some "tok", none, none⟩)] none
       (some "https://mm.example") c10Cfg rfl (Or.inl (by decide))).2
     "exec" (some "sess1") 3 failingEnv runningState (by decide) (by decide)⟩

end ToolchainPoster
